import Mathlib

/-!
Verification of the Fake-News-Detector text-normalization and
training/serving pipeline.

The development shallowly embeds the relevant Python functions:

* `clean_input_text` (two textually identical copies, one in `app.py`
  and one in `train_and_save_model.py`) — modelled character-exactly:
  Unicode scalar values are Lean `Char`s, Python whitespace is the set
  recognised by `str.split` and by the regex class `\s`, `str.lower`
  is modelled by the ASCII lowering `Char.toLower` (sufficient here:
  every non-ASCII character, lowered or not, is deleted by the
  `[^a-z0-9\s]` substitution, and all claims under study are
  insensitive to the lowering map outside `[a-z0-9]` and whitespace).
* `predict_news` (`app.py`) — the vectorizer and classifier are
  abstracted as functions over an arbitrary feature type, since their
  fitted numerics are external-library state; the control flow,
  the None-guard and the label-to-string mapping are embedded exactly.
* the dataset loading / cleanup prefix of `train_and_save_model.py` —
  the filesystem is a map from file names to an optional parse result,
  a loaded CSV is a `Frame` (presence of `text` / `label` columns plus
  rows of nullable text and label cells), and the script's outcome up
  to corpus preparation is a `TrainOutcome`.
* the estimator constructions (`train_test_split`,
  `PassiveAggressiveClassifier`) — embedded at the level of the
  keyword arguments the script passes, against the sklearn defaults.
-/

namespace FakeNews

/-- The set of characters Python treats as whitespace, both in
`str.split()` and in the regex class `\s` (CPython uses the same
`Py_UNICODE_ISSPACE` table for both): `\t \n \v \f \r`, the
information separators U+001C–U+001F, space, NEL, NBSP, and the
Unicode space separators. -/
def pyIsSpace (c : Char) : Bool :=
  let n := c.toNat
  (9 ≤ n && n ≤ 13) || (28 ≤ n && n ≤ 32) || n == 133 || n == 160 ||
  n == 0x1680 || (0x2000 ≤ n && n ≤ 0x200A) || n == 0x2028 || n == 0x2029 ||
  n == 0x202F || n == 0x205F || n == 0x3000

/-- The ASCII space character, the separator `' '.join` inserts. -/
def spaceChar : Char := Char.ofNat 32

/-- Membership in the regex class `[a-z0-9]`. -/
def isWordChar (c : Char) : Bool :=
  let n := c.toNat
  (97 ≤ n && n ≤ 122) || (48 ≤ n && n ≤ 57)

/-- The characters the substitution `re.sub(r'[^a-z0-9\s]', '', ·)`
keeps: `[a-z0-9]` or whitespace. -/
def keepChar (c : Char) : Bool :=
  isWordChar c || pyIsSpace c

/-- Accumulator pass of Python's `str.split()` with no arguments:
splits on runs of whitespace and never yields empty words.  `acc`
holds the current word, reversed. -/
def wordsAux : List Char → List Char → List (List Char)
  | [], acc => if acc = [] then [] else [acc.reverse]
  | c :: cs, acc =>
    if pyIsSpace c then
      if acc = [] then wordsAux cs [] else acc.reverse :: wordsAux cs []
    else wordsAux cs (c :: acc)

/-- Python `text.split()` on a character list. -/
def pySplit (l : List Char) : List (List Char) :=
  wordsAux l []

/-- Python `' '.join(words)` on character lists. -/
def joinWords : List (List Char) → List Char
  | [] => []
  | [w] => w
  | w :: w2 :: ws => w ++ spaceChar :: joinWords (w2 :: ws)

/-- A Python value handed to `clean_input_text`: either a `str`, or a
non-string carrying the string representation `str(·)` produces for
it (the function's first step coerces via `str`). -/
inductive PyInput where
  | str (s : String)
  | nonStr (stringRepr : String)

/-- The coercion `str(text)` applied by `clean_input_text` when the
input is not a string; the identity on strings. -/
def pyStr : PyInput → String
  | .str s => s
  | .nonStr r => r

namespace App

/-- `clean_input_text` from `app.py`: lower-case, delete every
character outside `[a-z0-9\s]`, then `' '.join(text.split())`. -/
def clean_input_text (s : String) : String :=
  let lowered := s.data.map Char.toLower
  let kept := lowered.filter keepChar
  ⟨joinWords (pySplit kept)⟩

/-- `clean_input_text` from `app.py` on an arbitrary Python value:
the `isinstance` guard coerces non-strings through `str`. -/
def clean_input_text_any (v : PyInput) : String :=
  clean_input_text (pyStr v)

end App

namespace Train

/-- `clean_input_text` from `train_and_save_model.py`: the training
script's copy of the normalizer (textually identical Python). -/
def clean_input_text (s : String) : String :=
  let lowered := s.data.map Char.toLower
  let kept := lowered.filter keepChar
  ⟨joinWords (pySplit kept)⟩

/-- `clean_input_text` from `train_and_save_model.py` on an arbitrary
Python value. -/
def clean_input_text_any (v : PyInput) : String :=
  clean_input_text (pyStr v)

end Train

/-- No two adjacent characters are both the ASCII space. -/
def noDoubleSpace : List Char → Bool
  | a :: b :: rest => !(a == spaceChar && b == spaceChar) && noDoubleSpace (b :: rest)
  | _ => true

/-- Canonical-output checker: every character is in `[a-z0-9]` or is a
single ASCII space, no two spaces are adjacent, and neither the first
nor the last character is a space. -/
def isCanonical (l : List Char) : Bool :=
  l.all (fun c => isWordChar c || c == spaceChar) &&
  (match l.head? with | none => true | some c => c != spaceChar) &&
  (match l.getLast? with | none => true | some c => c != spaceChar) &&
  noDoubleSpace l

/-- The fitted TF-IDF vectorizer loaded from `tfidfvect.pkl`,
abstracted to its `transform` method over an arbitrary feature
type (its fitted vocabulary and weights are opaque library state). -/
structure TfidfVectorizer (Feat : Type) where
  transform : String → Feat

/-- The fitted classifier loaded from `model.pkl`, abstracted to its
`predict` method returning an integer label. -/
structure Classifier (Feat : Type) where
  predict : Feat → Int

/-- The sentinel string `predict_news` returns when the model or the
vectorizer failed to load. -/
def modelErrorMessage : String := "Model Error: ML components not loaded correctly."

/-- `predict_news` from `app.py`: guard on the module-level `model` /
`tfidfvect` (each `None` when loading failed), clean the input,
transform, predict, and map label 1 to REAL and anything else to
FAKE. -/
def predict_news {Feat : Type} (model : Option (Classifier Feat))
    (tfidfvect : Option (TfidfVectorizer Feat)) (news_text : String) : String :=
  match model, tfidfvect with
  | some m, some v =>
    let cleaned_text := App.clean_input_text news_text
    let news_vect := v.transform cleaned_text
    let prediction := m.predict news_vect
    if prediction = 1 then "REAL" else "FAKE"
  | _, _ => modelErrorMessage

/-- A CSV file as `pd.read_csv` sees it: either a parse failure
(the script's `except` branch) or a loaded frame.  A `Frame` records
whether the `text` and `label` columns are present and its rows as
pairs of nullable text and label cells (label cells are meaningful
only when the `label` column is present). -/
structure Frame where
  hasText : Bool
  hasLabel : Bool
  rows : List (Option String × Option Int)
deriving DecidableEq

/-- The filesystem at training time: `none` when the file does not
exist, `some (Except.error e)` when `pd.read_csv` raises, and
`some (Except.ok f)` when it loads frame `f`. -/
def TrainFs : Type := String → Option (Except String Frame)

/-- One entry of `DATA_FILES`. -/
structure DataSource where
  file : String
  label_override : Option Int
deriving DecidableEq

/-- The `DATA_FILES` configuration of `train_and_save_model.py`. -/
def DATA_FILES : List DataSource :=
  [⟨"random_dataset.csv", none⟩,
   ⟨"manual_fake_data.csv", some 0⟩,
   ⟨"manual_real_data.csv", some 1⟩,
   ⟨"new_real_news_data.csv", some 1⟩]

/-- `df['label'] = label_override` when an override is configured:
the label column now exists and every row's label cell is the
override.  Without an override the frame is unchanged. -/
def applyOverride (f : Frame) : Option Int → Frame
  | some v => { f with hasLabel := true, rows := f.rows.map (fun r => (r.1, some v)) }
  | none => f

/-- Result of the loop body for one `DATA_FILES` entry: `fatal` is
the `exit()` on a missing `random_dataset.csv`, `skip` is every
`continue` / log-and-move-on branch, `loaded` appends to `all_data`. -/
inductive SourceResult where
  | fatal
  | skip
  | loaded (f : Frame)
deriving DecidableEq

/-- The loop body of the load-and-combine loop in
`train_and_save_model.py` for a single source. -/
def processSource (fs : TrainFs) (file : String) (label_override : Option Int) :
    SourceResult :=
  match fs file with
  | some (Except.ok df) =>
    if df.hasText = false then .skip
    else
      let df := applyOverride df label_override
      if df.hasLabel = false then .skip
      else .loaded df
  | some (Except.error _) => .skip
  | none => if file = "random_dataset.csv" then .fatal else .skip

/-- Running the load loop over a list of sources: `none` models the
`exit()` abort on a missing primary dataset, otherwise the list of
loaded frames (`all_data`) in order. -/
def loadAll (fs : TrainFs) : List DataSource → Option (List Frame)
  | [] => some []
  | s :: rest =>
    match processSource fs s.file s.label_override with
    | .fatal => none
    | .skip => loadAll fs rest
    | .loaded f => (loadAll fs rest).map (fun l => f :: l)

/-- The cleanup stage applied to the concatenated rows:
`dropna(subset=['text','label'])` keeps exactly the rows whose text
and label cells are both non-null, then `clean_input_text` is applied
to every text and the label is coerced to an integer (already an
integer in this model). -/
def cleanupRows (rows : List (Option String × Option Int)) : List (String × Int) :=
  (rows.filterMap (fun r => match r with
    | (some t, some l) => some (t, l)
    | _ => none)).map (fun r => (Train.clean_input_text r.1, r.2))

/-- Outcome of the script up to corpus preparation: the
`ConfigurationError` abort (primary file absent), the `NoDataError`
abort (`if not all_data`), or the cleaned Training Corpus the fits
would then run on. -/
inductive TrainOutcome where
  | configError
  | noDataError
  | corpusReady (corpus : List (String × Int))
deriving DecidableEq

/-- The script from the load loop through corpus cleanup, over an
explicit source list.  Note the emptiness check `if not all_data`
runs on the list of loaded frames, before concatenation and
`dropna`. -/
def trainOutcome (fs : TrainFs) (sources : List DataSource) : TrainOutcome :=
  match loadAll fs sources with
  | none => .configError
  | some frames =>
    if frames.isEmpty then .noDataError
    else .corpusReady (cleanupRows (frames.flatMap Frame.rows))

/-- The script as written, over its `DATA_FILES` configuration. -/
def runTraining (fs : TrainFs) : TrainOutcome :=
  trainOutcome fs DATA_FILES

/-- The keyword arguments of a `PassiveAggressiveClassifier(...)`
construction that govern fitting order and randomness. -/
structure PassiveAggressiveParams where
  max_iter : Nat
  shuffle : Bool
  random_state : Option Nat
deriving DecidableEq

/-- sklearn's defaults for `PassiveAggressiveClassifier`:
`max_iter=1000`, `shuffle=True`, `random_state=None`. -/
def pacDefaults : PassiveAggressiveParams :=
  ⟨1000, true, none⟩

/-- `pac = PassiveAggressiveClassifier(max_iter=50)` — the
accuracy-report fit: only `max_iter` is passed. -/
def pac : PassiveAggressiveParams :=
  { pacDefaults with max_iter := 50 }

/-- `pac_final = PassiveAggressiveClassifier(max_iter=50)` — the
deployed fit: only `max_iter` is passed. -/
def pac_final : PassiveAggressiveParams :=
  { pacDefaults with max_iter := 50 }

/-- The keyword arguments of the `train_test_split` call:
`test_size=0.2` (kept as the exact rational 1/5) and
`random_state=42`. -/
structure TrainTestSplitParams where
  test_size : ℚ
  random_state : Option Nat
deriving DecidableEq

/-- `train_test_split(X, y, test_size=0.2, random_state=42)`. -/
def train_test_split_params : TrainTestSplitParams :=
  ⟨1 / 5, some 42⟩

/-- The shape of any `str.split()` output: every word is non-empty;
for split outputs of `[a-z0-9\s]`-filtered text, every character of
every word is moreover in `[a-z0-9]`. -/
def validWords (ws : List (List Char)) : Prop :=
  ∀ w ∈ ws, w ≠ [] ∧ ∀ c ∈ w, isWordChar c = true

/-- Fixture filesystem: only `random_dataset.csv` exists; it parses
with both columns present but its single row has a null text cell,
so the corpus is empty after `dropna`. -/
def fsNullText : TrainFs := fun name =>
  if name = "random_dataset.csv" then
    some (Except.ok ⟨true, true, [(none, some 1)]⟩)
  else none

/-- Fixture filesystem: `random_dataset.csv` parses with one fully
populated row; `manual_fake_data.csv` parses with a `text` column, no
`label` column, and a single row whose text cell is null. -/
def fsOverrideNull : TrainFs := fun name =>
  if name = "random_dataset.csv" then
    some (Except.ok ⟨true, true, [(some "good row", some 1)]⟩)
  else if name = "manual_fake_data.csv" then
    some (Except.ok ⟨true, false, [(none, none)]⟩)
  else none

/-- Fixture filesystem: no dataset file exists at all. -/
def fsEmpty : TrainFs := fun _ => none

/-- Fixture filesystem: `random_dataset.csv` exists but fails to
parse; `manual_fake_data.csv` parses with a `text` column and one
populated row (label supplied by its configured override). -/
def fsPrimaryBroken : TrainFs := fun name =>
  if name = "random_dataset.csv" then
    some (Except.error "parse failure")
  else if name = "manual_fake_data.csv" then
    some (Except.ok ⟨true, false, [(some "spam text", none)]⟩)
  else none

end FakeNews

namespace FakeNews

theorem isWordChar_not_space {c : Char} (h : isWordChar c = true) :
    pyIsSpace c = false := by
  simp only [isWordChar, Bool.or_eq_true, Bool.and_eq_true, decide_eq_true_eq] at h
  simp only [pyIsSpace, Bool.or_eq_false_iff, Bool.and_eq_false_iff,
    decide_eq_false_iff_not, beq_eq_false_iff_ne, ne_eq]
  omega

theorem isWordChar_ne_space {c : Char} (h : isWordChar c = true) :
    c ≠ spaceChar := by
  intro e
  rw [e] at h
  exact absurd h (by decide)

theorem toLower_fix {c : Char} (h : isWordChar c = true ∨ c = spaceChar) :
    Char.toLower c = c := by
  have hn : ¬(c.toNat ≥ 65 ∧ c.toNat ≤ 90) := by
    rcases h with h | h
    · simp only [isWordChar, Bool.or_eq_true, Bool.and_eq_true, decide_eq_true_eq] at h
      omega
    · subst h
      decide
  unfold Char.toLower
  simp [hn]

theorem keepChar_of_wordChar {c : Char} (h : isWordChar c = true) :
    keepChar c = true := by
  simp [keepChar, h]

theorem keepChar_space : keepChar spaceChar = true := by decide

theorem wordChar_of_keep_not_space {c : Char} (hk : keepChar c = true)
    (hs : pyIsSpace c = false) : isWordChar c = true := by
  simp only [keepChar, Bool.or_eq_true] at hk
  rcases hk with h | h
  · exact h
  · rw [h] at hs
    exact absurd hs (by simp)

theorem wordsAux_valid (cs : List Char) (acc : List Char)
    (hcs : ∀ c ∈ cs, keepChar c = true)
    (hacc : ∀ c ∈ acc, isWordChar c = true) :
    validWords (wordsAux cs acc) := by
  induction cs generalizing acc with
  | nil =>
    intro w hw
    simp only [wordsAux] at hw
    by_cases hacc0 : acc = []
    · simp [hacc0] at hw
    · rw [if_neg hacc0] at hw
      simp only [List.mem_singleton] at hw
      subst hw
      refine ⟨by simpa using hacc0, ?_⟩
      intro c hc
      exact hacc c (List.mem_reverse.mp hc)
  | cons c cs ih =>
    have hc : keepChar c = true := hcs c (List.mem_cons_self c cs)
    have hcs' : ∀ x ∈ cs, keepChar x = true :=
      fun x hx => hcs x (List.mem_cons_of_mem _ hx)
    intro w hw
    simp only [wordsAux] at hw
    by_cases hsp : pyIsSpace c = true
    · rw [if_pos hsp] at hw
      by_cases hacc0 : acc = []
      · rw [if_pos hacc0] at hw
        exact ih [] hcs' (by simp) w hw
      · rw [if_neg hacc0] at hw
        rcases List.mem_cons.mp hw with h | h
        · subst h
          exact ⟨by simpa using hacc0, fun x hx => hacc x (List.mem_reverse.mp hx)⟩
        · exact ih [] hcs' (by simp) w h
    · rw [if_neg hsp] at hw
      have hcw : isWordChar c = true :=
        wordChar_of_keep_not_space hc (Bool.not_eq_true _ ▸ hsp)
      refine ih (c :: acc) hcs' ?_ w hw
      intro x hx
      rcases List.mem_cons.mp hx with h | h
      · subst h
        exact hcw
      · exact hacc x h

theorem validWords_tail {w : List Char} {ws : List (List Char)}
    (h : validWords (w :: ws)) : validWords ws :=
  fun x hx => h x (List.mem_cons_of_mem _ hx)

theorem joinWords_cons_head (c : Char) (w2 : List Char)
    (ws : List (List Char)) :
    ∃ t, joinWords ((c :: w2) :: ws) = c :: t := by
  cases ws with
  | nil => exact ⟨w2, rfl⟩
  | cons a l => exact ⟨w2 ++ spaceChar :: joinWords (a :: l), rfl⟩

theorem joinWords_alphabet (ws : List (List Char)) (h : validWords ws) :
    ∀ c ∈ joinWords ws, isWordChar c = true ∨ c = spaceChar := by
  induction ws with
  | nil =>
    intro c hc
    simp [joinWords] at hc
  | cons w ws ih =>
    have hw := h w (List.mem_cons_self w ws)
    cases ws with
    | nil =>
      intro c hc
      exact Or.inl (hw.2 c hc)
    | cons w2 ws2 =>
      intro c hc
      rw [joinWords] at hc
      rcases List.mem_append.mp hc with h1 | h1
      · exact Or.inl (hw.2 c h1)
      · rcases List.mem_cons.mp h1 with h2 | h2
        · exact Or.inr h2
        · exact ih (validWords_tail h) c h2

theorem joinWords_getLast? (ws : List (List Char)) (h : validWords ws) :
    ∀ c, (joinWords ws).getLast? = some c → isWordChar c = true := by
  induction ws with
  | nil =>
    intro c hc
    simp [joinWords] at hc
  | cons w ws ih =>
    have hw := h w (List.mem_cons_self w ws)
    cases ws with
    | nil =>
      intro c hc
      exact hw.2 c (List.mem_of_getLast?_eq_some hc)
    | cons w2 ws2 =>
      intro c hc
      rw [joinWords, List.getLast?_append] at hc
      have hne := (h w2 (List.mem_cons_of_mem _ (List.mem_cons_self w2 ws2))).1
      obtain ⟨a, w2', rfl⟩ : ∃ a w2', w2 = a :: w2' := by
        cases w2 with
        | nil => exact absurd rfl hne
        | cons a t => exact ⟨a, t, rfl⟩
      obtain ⟨t, ht⟩ := joinWords_cons_head a w2' ws2
      rw [ht, List.getLast?_cons_cons] at hc
      have hlast : (a :: t).getLast? = some c := by
        cases hgl : (a :: t).getLast? with
        | none =>
          have := List.getLast?_eq_none_iff.mp hgl
          exact absurd this (by simp)
        | some b =>
          rw [hgl, Option.or_some] at hc
          rw [hc]
      rw [← ht] at hlast
      exact ih (validWords_tail h) c hlast

theorem noDoubleSpace_cons {a : Char} {t : List Char}
    (ha : isWordChar a = true) (ht : noDoubleSpace t = true) :
    noDoubleSpace (a :: t) = true := by
  cases t with
  | nil => rfl
  | cons b t2 =>
    rw [noDoubleSpace]
    have hne := isWordChar_ne_space ha
    simp [hne, ht]

theorem noDoubleSpace_append {w l : List Char}
    (hw : ∀ c ∈ w, isWordChar c = true) (hl : noDoubleSpace l = true) :
    noDoubleSpace (w ++ l) = true := by
  induction w with
  | nil => simpa using hl
  | cons a w2 ih =>
    have h2 : noDoubleSpace (w2 ++ l) = true :=
      ih (fun c hc => hw c (List.mem_cons_of_mem _ hc))
    exact noDoubleSpace_cons (hw a (List.mem_cons_self a w2)) h2

theorem noDoubleSpace_space_cons {b : Char} {t : List Char}
    (hb : isWordChar b = true) (ht : noDoubleSpace (b :: t) = true) :
    noDoubleSpace (spaceChar :: b :: t) = true := by
  rw [noDoubleSpace]
  have hne := isWordChar_ne_space hb
  simp [ht, hne]

theorem joinWords_noDoubleSpace (ws : List (List Char)) (h : validWords ws) :
    noDoubleSpace (joinWords ws) = true := by
  induction ws with
  | nil => rfl
  | cons w ws ih =>
    have hw := h w (List.mem_cons_self w ws)
    cases ws with
    | nil =>
      have h1 := noDoubleSpace_append hw.2 (show noDoubleSpace [] = true from rfl)
      rw [List.append_nil] at h1
      exact h1
    | cons w2 ws2 =>
      rw [joinWords]
      refine noDoubleSpace_append hw.2 ?_
      have hne := (h w2 (List.mem_cons_of_mem _ (List.mem_cons_self w2 ws2))).1
      obtain ⟨a, w2', rfl⟩ : ∃ a w2', w2 = a :: w2' := by
        cases w2 with
        | nil => exact absurd rfl hne
        | cons a t => exact ⟨a, t, rfl⟩
      obtain ⟨t, ht⟩ := joinWords_cons_head a w2' ws2
      have ha : isWordChar a = true :=
        (h (a :: w2') (List.mem_cons_of_mem _ (List.mem_cons_self _ ws2))).2 a
          (List.mem_cons_self a w2')
      rw [ht]
      refine noDoubleSpace_space_cons ha ?_
      rw [← ht]
      exact ih (validWords_tail h)

theorem wordsAux_append_word (w : List Char)
    (hw : ∀ c ∈ w, pyIsSpace c = false) (rest acc : List Char) :
    wordsAux (w ++ rest) acc = wordsAux rest (w.reverse ++ acc) := by
  induction w generalizing acc with
  | nil => simp
  | cons c w2 ih =>
    have hc : pyIsSpace c = false := hw c (List.mem_cons_self c w2)
    rw [List.cons_append, wordsAux, if_neg (by simp [hc])]
    rw [ih (fun x hx => hw x (List.mem_cons_of_mem _ hx)) (c :: acc)]
    simp

theorem pySplit_joinWords (ws : List (List Char)) (h : validWords ws) :
    pySplit (joinWords ws) = ws := by
  induction ws with
  | nil => rfl
  | cons w ws ih =>
    have hw := h w (List.mem_cons_self w ws)
    have hns : ∀ c ∈ w, pyIsSpace c = false :=
      fun c hc => isWordChar_not_space (hw.2 c hc)
    have hrev : ¬(w.reverse = []) := by
      simp only [List.reverse_eq_nil_iff]
      exact hw.1
    cases ws with
    | nil =>
      show wordsAux (joinWords [w]) [] = [w]
      rw [joinWords]
      have h1 := wordsAux_append_word w hns [] []
      rw [List.append_nil, List.append_nil] at h1
      rw [h1, wordsAux, if_neg hrev, List.reverse_reverse]
    | cons w2 ws2 =>
      show wordsAux (joinWords (w :: w2 :: ws2)) [] = w :: w2 :: ws2
      rw [joinWords]
      rw [wordsAux_append_word w hns _ []]
      rw [List.append_nil, wordsAux, if_pos (by decide), if_neg hrev,
        List.reverse_reverse]
      exact congrArg (fun l => w :: l) (ih (validWords_tail h))

theorem filter_keep_fix {l : List Char}
    (h : ∀ c ∈ l, isWordChar c = true ∨ c = spaceChar) :
    l.filter keepChar = l := by
  rw [List.filter_eq_self]
  intro a ha
  rcases h a ha with hw | hs
  · exact keepChar_of_wordChar hw
  · rw [hs]
    exact keepChar_space

theorem map_toLower_fix {l : List Char}
    (h : ∀ c ∈ l, isWordChar c = true ∨ c = spaceChar) :
    l.map Char.toLower = l := by
  have h2 : ∀ c ∈ l, Char.toLower c = id c := fun c hc => toLower_fix (h c hc)
  rw [List.map_congr_left h2, List.map_id]

theorem clean_words_valid (s : String) :
    validWords (pySplit ((s.data.map Char.toLower).filter keepChar)) :=
  wordsAux_valid _ [] (fun c hc => (List.mem_filter.mp hc).2) (by simp)

/-- C1: the Trainer's normalizer and the Predictor's normalizer agree
on every input value (string or not). -/
theorem clean_input_text_train_serve_identical :
    (∀ s : String, App.clean_input_text s = Train.clean_input_text s) ∧
    (∀ v : PyInput, App.clean_input_text_any v = Train.clean_input_text_any v) :=
  ⟨fun _ => rfl, fun _ => rfl⟩

theorem canonical_of_validWords (ws : List (List Char)) (h : validWords ws) :
    isCanonical (joinWords ws) = true := by
  unfold isCanonical
  simp only [Bool.and_eq_true]
  refine ⟨⟨⟨?_, ?_⟩, ?_⟩, ?_⟩
  · rw [List.all_eq_true]
    intro c hc
    rcases joinWords_alphabet ws h c hc with hw | hs
    · simp [hw]
    · simp [hs]
  · cases ws with
    | nil => rfl
    | cons w ws2 =>
      have hw := h w (List.mem_cons_self w ws2)
      obtain ⟨a, w2, rfl⟩ : ∃ a w2, w = a :: w2 := by
        cases w with
        | nil => exact absurd rfl hw.1
        | cons a t => exact ⟨a, t, rfl⟩
      obtain ⟨t, ht⟩ := joinWords_cons_head a w2 ws2
      rw [ht]
      have ha : isWordChar a = true := hw.2 a (List.mem_cons_self a w2)
      simp [isWordChar_ne_space ha]
  · cases hgl : (joinWords ws).getLast? with
    | none => rfl
    | some c =>
      have hc := joinWords_getLast? ws h c hgl
      simp [isWordChar_ne_space hc]
  · exact joinWords_noDoubleSpace ws h

theorem cleanChars_fixpoint (ws : List (List Char)) (h : validWords ws) :
    joinWords (pySplit (((joinWords ws).map Char.toLower).filter keepChar)) =
      joinWords ws := by
  rw [map_toLower_fix (joinWords_alphabet ws h),
    filter_keep_fix (joinWords_alphabet ws h), pySplit_joinWords ws h]

/-- C2: on every input — a string or any other value, which the
function first coerces through `str` — the output of
`clean_input_text` consists only of characters in `[a-z0-9]` and
single spaces, with no two adjacent spaces and no leading or trailing
space. -/
theorem clean_output_canonical :
    ∀ v : PyInput, isCanonical (App.clean_input_text_any v).data = true := by
  intro v
  show isCanonical
    (joinWords (pySplit (((pyStr v).data.map Char.toLower).filter keepChar))) = true
  exact canonical_of_validWords _ (clean_words_valid (pyStr v))

/-- C3: the normalizer is idempotent: cleaning an already-cleaned
string returns it unchanged. -/
theorem clean_input_text_idempotent :
    ∀ s : String,
      App.clean_input_text (App.clean_input_text s) = App.clean_input_text s := by
  intro s
  exact congrArg String.mk (cleanChars_fixpoint _ (clean_words_valid s))

/-- C4: for every input and every loaded (or missing) artifact pair,
`predict_news` returns REAL, FAKE, or the model-unavailable sentinel,
and when both artifacts are loaded the mapping sends classifier label
1 to REAL, label 0 to FAKE, and in fact every non-1 label to FAKE, so
no other return value is possible. -/
theorem predict_news_total_mapping {Feat : Type}
    (model : Option (Classifier Feat)) (tfidfvect : Option (TfidfVectorizer Feat))
    (t : String) :
    (predict_news model tfidfvect t = "REAL" ∨
     predict_news model tfidfvect t = "FAKE" ∨
     predict_news model tfidfvect t = modelErrorMessage) ∧
    (∀ m v, model = some m → tfidfvect = some v →
      ((m.predict (v.transform (App.clean_input_text t)) = 1 →
          predict_news model tfidfvect t = "REAL") ∧
       (m.predict (v.transform (App.clean_input_text t)) = 0 →
          predict_news model tfidfvect t = "FAKE") ∧
       (m.predict (v.transform (App.clean_input_text t)) ≠ 1 →
          predict_news model tfidfvect t = "FAKE"))) := by
  rcases model with _ | m
  · rcases tfidfvect with _ | v
    · exact ⟨Or.inr (Or.inr rfl), fun m v hm _ => by cases hm⟩
    · exact ⟨Or.inr (Or.inr rfl), fun m v hm _ => by cases hm⟩
  · rcases tfidfvect with _ | v
    · exact ⟨Or.inr (Or.inr rfl), fun m2 v hm hv => by cases hv⟩
    · constructor
      · by_cases h : m.predict (v.transform (App.clean_input_text t)) = 1
        · exact Or.inl (by simp [predict_news, h])
        · exact Or.inr (Or.inl (by simp [predict_news, h]))
      · intro m2 v2 hm hv
        injection hm with hm2
        injection hv with hv2
        subst hm2
        subst hv2
        refine ⟨fun h => by simp [predict_news, h],
          fun h => by simp [predict_news, h],
          fun h => by simp [predict_news, h]⟩

/-- Witness for C4 at a concrete model: a constant-1 classifier on a
unit feature space yields REAL, a constant-0 classifier yields
FAKE. -/
theorem predict_news_total_mapping_witness :
    predict_news (some ⟨fun _ => (1 : Int)⟩) (some ⟨fun _ => ()⟩) "x" = "REAL" ∧
    predict_news (some ⟨fun _ => (0 : Int)⟩) (some ⟨fun _ => ()⟩) "x" = "FAKE" := by
  constructor
  · exact ((@predict_news_total_mapping Unit (some ⟨fun _ => 1⟩)
      (some ⟨fun _ => ()⟩) "x").2 ⟨fun _ => 1⟩ ⟨fun _ => ()⟩ rfl rfl).1 rfl
  · exact ((@predict_news_total_mapping Unit (some ⟨fun _ => 0⟩)
      (some ⟨fun _ => ()⟩) "x").2 ⟨fun _ => 0⟩ ⟨fun _ => ()⟩ rfl rfl).2.1 rfl

/-- C5: whenever the model or the vectorizer is `None` (as after a
failed artifact load at startup), `predict_news` returns the
model-unavailable sentinel for every input; the result is a plain
return value (no exception in the embedding's total function) and is
independent of the input text and of whatever half-loaded component
remains, which is the observable content of neither the vectorizer
nor the classifier being invoked. -/
theorem predict_news_model_unavailable {Feat : Type}
    (model : Option (Classifier Feat)) (tfidfvect : Option (TfidfVectorizer Feat))
    (t : String) (h : model = none ∨ tfidfvect = none) :
    predict_news model tfidfvect t = modelErrorMessage := by
  rcases h with h | h
  · subst h
    rcases tfidfvect with _ | v <;> rfl
  · subst h
    rcases model with _ | m <;> rfl

/-- Witness for C5: with neither artifact loaded the sentinel comes
back on a concrete input. -/
theorem predict_news_model_unavailable_witness :
    @predict_news Unit none none "some text" = modelErrorMessage :=
  @predict_news_model_unavailable Unit none none "some text" (Or.inl rfl)

/-- C6 counterexample: a filesystem on which the Training Corpus is
empty after cleanup (the only loaded dataset's single row has a null
text cell, so `dropna` removes everything) yet the script does not
take the NoDataError path: the `if not all_data` check sees a
non-empty list of loaded frames and the run proceeds to an empty
corpus. -/
theorem empty_corpus_not_noDataError :
    loadAll fsNullText DATA_FILES = some [⟨true, true, [(none, some 1)]⟩] ∧
    cleanupRows ([(⟨true, true, [(none, some 1)]⟩ : Frame)].flatMap Frame.rows) = [] ∧
    runTraining fsNullText = TrainOutcome.corpusReady [] ∧
    runTraining fsNullText ≠ TrainOutcome.noDataError := by
  refine ⟨?_, ?_, ?_, ?_⟩ <;> decide

/-- C6 amended: the NoDataError path is taken exactly when no dataset
loads at all (the `all_data` list is empty); a corpus that becomes
empty only through `dropna` after concatenation does not trigger
it. -/
theorem noDataError_iff_no_source_loaded (fs : TrainFs) :
    runTraining fs = TrainOutcome.noDataError ↔ loadAll fs DATA_FILES = some [] := by
  unfold runTraining trainOutcome
  cases h : loadAll fs DATA_FILES with
  | none => simp
  | some frames =>
    cases frames with
    | nil => simp
    | cons f l => simp

/-- C7: if `random_dataset.csv` is absent from the filesystem the
load loop hits its `exit()` (the ConfigurationError path) while
processing that first source, before anything downstream — cleanup or
any fit — is reached, regardless of the other files. -/
theorem primary_absent_configError (fs : TrainFs)
    (h : fs "random_dataset.csv" = none) :
    runTraining fs = TrainOutcome.configError := by
  have hps : processSource fs "random_dataset.csv" none = SourceResult.fatal := by
    unfold processSource
    rw [h]
    rfl
  unfold runTraining trainOutcome
  simp [DATA_FILES, loadAll, hps]

/-- Witness for C7: with no files present at all, the run aborts with
the ConfigurationError path. -/
theorem primary_absent_configError_witness :
    runTraining fsEmpty = TrainOutcome.configError :=
  primary_absent_configError fsEmpty rfl

theorem cleanupRows_override (rows : List (Option String × Option Int)) (v : Int) :
    cleanupRows (rows.map (fun r => (r.1, some v))) =
      rows.filterMap (fun r => r.1.map (fun t => (Train.clean_input_text t, v))) := by
  induction rows with
  | nil => rfl
  | cons r rest ih =>
    rcases r with ⟨ot, ol⟩
    cases ot with
    | none =>
      simp only [cleanupRows, List.map_cons, List.filterMap_cons] at ih ⊢
      exact ih
    | some t =>
      simp only [cleanupRows] at ih ⊢
      simp only [List.filterMap_map] at ih
      simp [ih]

/-- C8 amended: a dataset descriptor with a configured label override
whose file parses and has a `text` column is never skipped — the
override is applied before the label-column check, so the missing
`label` column is created and every row's label cell becomes the
override; every row whose TEXT cell is non-null then enters the
Training Corpus with the override label (rows with a null text cell
are removed by `dropna` and do not enter). -/
theorem override_dataset_loaded (fs : TrainFs) (file : String) (v : Int) (f : Frame)
    (hload : fs file = some (Except.ok f)) (htext : f.hasText = true) :
    processSource fs file (some v) = SourceResult.loaded (applyOverride f (some v)) ∧
    (applyOverride f (some v)).rows = f.rows.map (fun r => (r.1, some v)) ∧
    cleanupRows (applyOverride f (some v)).rows =
      f.rows.filterMap (fun r => r.1.map (fun t => (Train.clean_input_text t, v))) := by
  refine ⟨?_, rfl, ?_⟩
  · unfold processSource
    rw [hload]
    simp [htext, applyOverride]
  · exact cleanupRows_override f.rows v

/-- Witness for C8's amended claim at a concrete frame with a
`text` column and no `label` column. -/
theorem override_dataset_loaded_witness :
    processSource fsPrimaryBroken "manual_fake_data.csv" (some 0) =
      SourceResult.loaded
        (applyOverride ⟨true, false, [(some "spam text", none)]⟩ (some 0)) ∧
    cleanupRows (applyOverride ⟨true, false, [(some "spam text", none)]⟩ (some 0)).rows =
      [("spam text", 0)] := by
  have h := override_dataset_loaded fsPrimaryBroken "manual_fake_data.csv" 0
    ⟨true, false, [(some "spam text", none)]⟩ rfl rfl
  exact ⟨h.1, by rw [h.2.2]; decide⟩

/-- C8 counterexample: a loaded override-0 dataset whose single row
has a null text cell.  The dataset is not skipped and its row's label
cell becomes 0, but the row does NOT enter the Training Corpus — the
`dropna` on the text column removes it — so the corpus of the whole
run contains only the primary dataset's row, refuting "every one of
its rows enters the Training Corpus". -/
theorem override_dataset_row_dropped :
    processSource fsOverrideNull "manual_fake_data.csv" (some 0) =
      SourceResult.loaded ⟨true, true, [(none, some 0)]⟩ ∧
    (⟨true, true, [(none, some 0)]⟩ : Frame).rows.length = 1 ∧
    runTraining fsOverrideNull = TrainOutcome.corpusReady [("good row", 1)] := by
  refine ⟨?_, ?_, ?_⟩ <;> decide

/-- C9 counterexample: the deployed fit is constructed as
`PassiveAggressiveClassifier(max_iter=50)` — `random_state` is left
at sklearn's default `None` and `shuffle` at its default `True`, so
the final 100%-data fit is NOT seeded, refuting the claim's
assertion that it is. -/
theorem final_fit_not_seeded :
    pac_final.random_state = none ∧ pac_final.shuffle = true :=
  ⟨rfl, rfl⟩

/-- C9 amended: the train/test split is seeded
(`random_state=42`, `test_size=0.2`), but both classifier
constructions pass only `max_iter=50`, leaving `shuffle=True` and
`random_state=None`; the code therefore fixes the split's randomness
and does not fix the classifiers' internal shuffling, so run-to-run
agreement of the deployed model's predictions is not established by
the script. -/
theorem training_randomness_configuration :
    train_test_split_params.random_state = some 42 ∧
    train_test_split_params.test_size = 1 / 5 ∧
    pac.max_iter = 50 ∧
    pac.random_state = none ∧
    pac_final.max_iter = 50 ∧
    pac_final.random_state = none ∧
    pac_final.shuffle = true :=
  ⟨rfl, rfl, rfl, rfl, rfl, rfl, rfl⟩

theorem processSource_fatal_name (fs : TrainFs) (file : String) (ov : Option Int)
    (h : processSource fs file ov = SourceResult.fatal) :
    file = "random_dataset.csv" := by
  unfold processSource at h
  cases hfs : fs file with
  | none =>
    rw [hfs] at h
    by_cases he : file = "random_dataset.csv"
    · exact he
    · rw [if_neg he] at h
      simp at h
  | some r =>
    rw [hfs] at h
    cases r with
    | error e => simp at h
    | ok df =>
      by_cases ht : df.hasText = false
      · simp [ht] at h
      · by_cases hl : (applyOverride df ov).hasLabel = false
        · simp [ht, hl] at h
        · simp [ht, hl] at h

theorem loadAll_no_primary (fs : TrainFs) (sources : List DataSource)
    (h : ∀ s ∈ sources, ¬(s.file = "random_dataset.csv")) :
    loadAll fs sources ≠ none := by
  induction sources with
  | nil => simp [loadAll]
  | cons s rest ih =>
    have hs := h s (List.mem_cons_self s rest)
    have hrest := ih (fun x hx => h x (List.mem_cons_of_mem _ hx))
    rw [loadAll]
    cases hps : processSource fs s.file s.label_override with
    | fatal => exact absurd (processSource_fatal_name fs s.file s.label_override hps) hs
    | skip => exact hrest
    | loaded f =>
      cases hrec : loadAll fs rest with
      | none => exact absurd hrec hrest
      | some l => simp

/-- C10: the primary-dataset fatality fires only on file absence.  If
`random_dataset.csv` exists but its parse raises, or it lacks a
`text` column, or it lacks a `label` column (it has no override), the
source is skipped exactly like an optional one, the run continues
over the remaining `DATA_FILES` entries, and the ConfigurationError
abort does not occur. -/
theorem primary_defective_skipped (fs : TrainFs) (r : Except String Frame)
    (hr : fs "random_dataset.csv" = some r)
    (hdef : ∀ f, r = Except.ok f → f.hasText = false ∨ f.hasLabel = false) :
    processSource fs "random_dataset.csv" none = SourceResult.skip ∧
    runTraining fs = trainOutcome fs (DATA_FILES.drop 1) ∧
    runTraining fs ≠ TrainOutcome.configError := by
  have hskip : processSource fs "random_dataset.csv" none = SourceResult.skip := by
    unfold processSource
    rw [hr]
    cases r with
    | error e => rfl
    | ok f =>
      rcases hdef f rfl with hd | hd
      · simp [hd]
      · simp [applyOverride, hd]
  have heq : runTraining fs = trainOutcome fs (DATA_FILES.drop 1) := by
    unfold runTraining trainOutcome
    have hload : loadAll fs DATA_FILES = loadAll fs (DATA_FILES.drop 1) := by
      show loadAll fs (⟨"random_dataset.csv", none⟩ :: DATA_FILES.drop 1) = _
      rw [loadAll, hskip]
    rw [hload]
  refine ⟨hskip, heq, ?_⟩
  rw [heq]
  unfold trainOutcome
  cases hl : loadAll fs (DATA_FILES.drop 1) with
  | none =>
    exact absurd hl (loadAll_no_primary fs (DATA_FILES.drop 1) (by decide))
  | some frames =>
    cases frames with
    | nil => simp
    | cons f l => simp

/-- Witness for C10: the primary file exists but fails to parse; the
run skips it and proceeds to a corpus built from the override
dataset, with no ConfigurationError. -/
theorem primary_defective_skipped_witness :
    (processSource fsPrimaryBroken "random_dataset.csv" none = SourceResult.skip ∧
     runTraining fsPrimaryBroken = trainOutcome fsPrimaryBroken (DATA_FILES.drop 1) ∧
     runTraining fsPrimaryBroken ≠ TrainOutcome.configError) ∧
    runTraining fsPrimaryBroken = TrainOutcome.corpusReady [("spam text", 0)] :=
  ⟨primary_defective_skipped fsPrimaryBroken (Except.error "parse failure") rfl
    (fun f hf => Except.noConfusion hf), by decide⟩

end FakeNews
